import Mathlib

/-!
Shallow embedding of the taiko hive integration-test harness core:
the funding Vault (nonce issuance, account creation), the wait
primitives (WaitBlock, WaitReceipt, WaitProveEvent), the Devnet
orchestration steps (AddL1ELNode, AddProverNode, addWhitelist,
deployL1Contracts), the TestEnv timeout-context slot, and the
semaphore discipline of the RunTests scheduler.

Go machine integers are modelled as Nat with explicit reduction
modulo 2^64 where the source uses uint64 arithmetic.  External
effects (RPC queries, receipt polls, context cancellation) are
modelled as explicit oracles `Nat → _` indexed by the poll
iteration; loops whose termination depends on the oracle are given
fuel, returning `none` while still running.
-/

namespace HiveTaiko

/-- The modulus 2^64 of Go's uint64. -/
def UINT64_MOD : Nat := 2 ^ 64

/-- The Vault state relevant to nonce issuance: the funding-account
nonce counter (`v.nonce` in part_000).  The key map is modelled
separately where needed. -/
structure Vault where
  nonce : Nat
deriving Repr, DecidableEq

/-- Function `nextNonce` from part_000: under the vault lock, returns the
current counter and increments it (uint64 arithmetic). -/
def Vault.nextNonce (v : Vault) : Nat × Vault :=
  (v.nonce, { v with nonce := (v.nonce + 1) % UINT64_MOD })

/-- The funding transaction fields fixed by `makeFundingTx`
(part_000): nonce from `nextNonce`, gas limit 75000, recipient and
value as given. -/
structure FundingTx where
  nonce : Nat
  gas : Nat
  recipient : Nat
  value : Nat
deriving Repr, DecidableEq

/-- Function `makeFundingTx` from part_000: draws the next nonce and builds
the signed funding transaction. -/
def Vault.makeFundingTx (v : Vault) (recipient amount : Nat) :
    FundingTx × Vault :=
  let p := v.nextNonce
  ({ nonce := p.1, gas := 75000, recipient := recipient, value := amount }, p.2)

/-- A sequence of create-and-fund calls against one Vault, keeping
only the funding-transaction construction (the part that touches the
nonce counter).  Returns the issued transactions in call order and
the final Vault state. -/
def Vault.fundMany (v : Vault) (reqs : List (Nat × Nat)) :
    List FundingTx × Vault :=
  match reqs with
  | [] => ([], v)
  | r :: rs =>
    let p := v.makeFundingTx r.1 r.2
    let q := p.2.fundMany rs
    (p.1 :: q.1, q.2)

theorem fundMany_nonces (v : Vault) (reqs : List (Nat × Nat))
    (h : v.nonce + reqs.length < UINT64_MOD) :
    ((v.fundMany reqs).1.map FundingTx.nonce
      = List.range' v.nonce reqs.length)
    ∧ (v.fundMany reqs).2.nonce = v.nonce + reqs.length := by
  induction reqs generalizing v with
  | nil => simp [Vault.fundMany]
  | cons r rs ih =>
    have hlt : v.nonce + 1 < UINT64_MOD := by
      simp only [List.length_cons] at h; omega
    have ih2 := ih { nonce := v.nonce + 1 }
      (by simp only [List.length_cons] at h ⊢; omega)
    have hfst : (v.fundMany (r :: rs)).1
        = { nonce := v.nonce, gas := 75000, recipient := r.1, value := r.2 }
          :: (({ nonce := v.nonce + 1 } : Vault).fundMany rs).1 := by
      simp only [Vault.fundMany, Vault.makeFundingTx, Vault.nextNonce,
        Nat.mod_eq_of_lt hlt]
    have hsnd : (v.fundMany (r :: rs)).2
        = (({ nonce := v.nonce + 1 } : Vault).fundMany rs).2 := by
      simp only [Vault.fundMany, Vault.makeFundingTx, Vault.nextNonce,
        Nat.mod_eq_of_lt hlt]
    have htl : ((({ nonce := v.nonce + 1 } : Vault).fundMany rs).1.map
        FundingTx.nonce) = List.range' (v.nonce + 1) rs.length := ih2.1
    have h2 : (({ nonce := v.nonce + 1 } : Vault).fundMany rs).2.nonce
        = v.nonce + 1 + rs.length := ih2.2
    constructor
    · rw [hfst, List.length_cons, List.range'_succ, List.map_cons]
      simp only [List.cons.injEq]
      exact ⟨trivial, htl⟩
    · rw [hsnd, List.length_cons, h2]
      omega

/-- C2: for every sequence of N create-and-fund calls against one
Vault (CreateAccount via makeFundingTx), the N nonces placed in the
funding transactions form the contiguous increasing run starting from
the counter's pre-call value (hence are pairwise distinct), and each
call increments the counter exactly once, so the final counter is the
start value plus N.  Stated below the uint64 wrap bound. -/
theorem c2_fundMany_nonces_contiguous_distinct (v : Vault)
    (reqs : List (Nat × Nat)) (h : v.nonce + reqs.length < UINT64_MOD) :
    ((v.fundMany reqs).1.map FundingTx.nonce
      = List.range' v.nonce reqs.length)
    ∧ ((v.fundMany reqs).1.map FundingTx.nonce).Nodup
    ∧ (v.fundMany reqs).2.nonce = v.nonce + reqs.length := by
  obtain ⟨h1, h2⟩ := fundMany_nonces v reqs h
  refine ⟨h1, ?_, h2⟩
  rw [h1]
  exact List.nodup_range' v.nonce reqs.length

/-- Witness for C2 at a concrete vault state and two funding calls. -/
theorem c2_witness :
    (({ nonce := 5 } : Vault).nonce + [(1, 2), (3, 4)].length < UINT64_MOD)
    ∧ ((({ nonce := 5 } : Vault).fundMany [(1, 2), (3, 4)]).1.map
          FundingTx.nonce = List.range' 5 2
        ∧ ((({ nonce := 5 } : Vault).fundMany [(1, 2), (3, 4)]).1.map
            FundingTx.nonce).Nodup
        ∧ (({ nonce := 5 } : Vault).fundMany [(1, 2), (3, 4)]).2.nonce
            = 5 + 2) :=
  ⟨by decide, c2_fundMany_nonces_contiguous_distinct { nonce := 5 }
    [(1, 2), (3, 4)] (by decide)⟩

/-- A transaction receipt; WaitReceipt only inspects the status
field. -/
structure Receipt where
  status : Nat
deriving Repr, DecidableEq

/-- Result of one `client.TransactionReceipt` query inside the
WaitReceipt poll loop: the `ethereum.NotFound` error, some other RPC
error, or a found receipt. -/
inductive ReceiptQueryRes where
  | notFound
  | rpcErr (e : Nat)
  | found (r : Receipt)
deriving Repr, DecidableEq

/-- The errors WaitReceipt can return: the context's error on
cancellation, a propagated RPC error, or the
"expected status %d, but got %d" mismatch error. -/
inductive WaitErr where
  | ctxErr
  | rpc (e : Nat)
  | statusMismatch (expected got : Nat)
deriving Repr, DecidableEq

/-- The WaitReceipt poll loop from helper.go (identical in the second
compilation unit of devnet.go).  `q i` is the result of the query on
iteration `i`; `cancelled i` tells whether `ctx.Done()` fires before
the next 100ms tick on iteration `i`.  The loop is unbounded in the
source, so it takes fuel; `none` means the loop is still running
after `fuel` iterations.  The returned pair mirrors Go's
`(*types.Receipt, error)`. -/
def waitReceiptAux (q : Nat → ReceiptQueryRes) (cancelled : Nat → Bool)
    (status : Nat) : Nat → Nat → Option (Option Receipt × Option WaitErr)
  | 0, _ => none
  | fuel + 1, i =>
    match q i with
    | .notFound =>
      if cancelled i then some (none, some .ctxErr)
      else waitReceiptAux q cancelled status fuel (i + 1)
    | .rpcErr e => some (none, some (.rpc e))
    | .found r =>
      if r.status = status then some (some r, none)
      else some (some r, some (.statusMismatch status r.status))

/-- The `WaitReceipt` entry point: the loop starts at iteration 0. -/
def WaitReceipt (q : Nat → ReceiptQueryRes) (cancelled : Nat → Bool)
    (status fuel : Nat) : Option (Option Receipt × Option WaitErr) :=
  waitReceiptAux q cancelled status fuel 0

/-- The WaitReceipt poll tick interval in milliseconds (the
`time.NewTicker(100 * time.Millisecond)` in the source). -/
def waitReceiptTickMs : Nat := 100

/-- C3: when the poll loop finds a receipt, WaitReceipt returns that
receipt (non-nil) together with a status-mismatch error exactly when
the receipt's status differs from the expected status; and on any
terminating run, the returned receipt is non-nil with a non-nil error
exactly when its status differs from the expected one. -/
theorem c3_waitReceipt_mismatch_returns_receipt
    (q : Nat → ReceiptQueryRes) (cancelled : Nat → Bool)
    (status fuel i : Nat) :
    (∀ r, q i = .found r →
      waitReceiptAux q cancelled status (fuel + 1) i
        = some (some r,
            if r.status = status then none
            else some (.statusMismatch status r.status)))
    ∧ (∀ out, waitReceiptAux q cancelled status fuel i = some out →
        ∀ r, out.1 = some r → (out.2 ≠ none ↔ r.status ≠ status)) := by
  constructor
  · intro r hr
    by_cases hs : r.status = status <;> simp [waitReceiptAux, hr, hs]
  · induction fuel generalizing i with
    | zero => intro out hout; simp [waitReceiptAux] at hout
    | succ k ih =>
      intro out hout r hr
      rcases hq : q i with _ | e | r0
      · rcases hc : cancelled i with _ | _
        · simp only [waitReceiptAux, hq, hc, Bool.false_eq_true,
            if_false] at hout
          exact ih (i + 1) out hout r hr
        · simp only [waitReceiptAux, hq, hc, if_true,
            Option.some.injEq] at hout
          subst hout; simp at hr
      · simp only [waitReceiptAux, hq, Option.some.injEq] at hout
        subst hout; simp at hr
      · by_cases hs : r0.status = status
        · simp only [waitReceiptAux, hq, if_pos hs,
            Option.some.injEq] at hout
          subst hout
          simp only [] at hr
          simp only [Option.some.injEq] at hr
          subst hr
          simp [hs]
        · simp only [waitReceiptAux, hq, if_neg hs,
            Option.some.injEq] at hout
          subst hout
          simp only [] at hr
          simp only [Option.some.injEq] at hr
          subst hr
          simp [hs]

/-- A query oracle that always finds a receipt with status 0. -/
def qFoundBad : Nat → ReceiptQueryRes := fun _ => .found { status := 0 }

/-- A cancellation oracle that never fires. -/
def neverCancelled : Nat → Bool := fun _ => false

/-- Witness for C3: with expected status 1 and a found receipt of
status 0, WaitReceipt returns the receipt with the mismatch error. -/
theorem c3_witness :
    qFoundBad 0 = .found { status := 0 }
    ∧ waitReceiptAux qFoundBad neverCancelled 1 1 0
        = some (some { status := 0 }, some (.statusMismatch 1 0)) := by
  refine ⟨rfl, ?_⟩
  have h := (c3_waitReceipt_mismatch_returns_receipt qFoundBad
    neverCancelled 1 0 0).1 { status := 0 } rfl
  simpa using h

/-- C4: within one poll iteration of WaitReceipt, a notFound result
with the context not yet cancelled continues the loop at the next
iteration; a notFound result with the context cancelled returns the
context's error with a nil receipt; any other RPC error returns
immediately with a nil receipt and the propagated error, with no
retry. -/
theorem c4_waitReceipt_notFound_retries_rpcErr_fatal
    (q : Nat → ReceiptQueryRes) (cancelled : Nat → Bool)
    (status fuel i : Nat) :
    (q i = .notFound → cancelled i = false →
      waitReceiptAux q cancelled status (fuel + 1) i
        = waitReceiptAux q cancelled status fuel (i + 1))
    ∧ (q i = .notFound → cancelled i = true →
      waitReceiptAux q cancelled status (fuel + 1) i
        = some (none, some .ctxErr))
    ∧ (∀ e, q i = .rpcErr e →
      waitReceiptAux q cancelled status (fuel + 1) i
        = some (none, some (.rpc e))) := by
  refine ⟨fun hq hc => ?_, fun hq hc => ?_, fun e hq => ?_⟩
  · simp [waitReceiptAux, hq, hc]
  · simp [waitReceiptAux, hq, hc]
  · simp [waitReceiptAux, hq]

/-- A query oracle: notFound everywhere except an RPC error at
iteration 2. -/
def qMixed : Nat → ReceiptQueryRes :=
  fun i => if i = 2 then .rpcErr 7 else .notFound

/-- A cancellation oracle firing exactly at iteration 1. -/
def cancelAtOne : Nat → Bool := fun i => i = 1

/-- Witness for C4 at concrete oracles: retry at iteration 0,
context error at iteration 1, immediate fatal RPC error at
iteration 2. -/
theorem c4_witness :
    (waitReceiptAux qMixed cancelAtOne 1 3 0
      = waitReceiptAux qMixed cancelAtOne 1 2 1)
    ∧ (waitReceiptAux qMixed cancelAtOne 1 2 1
      = some (none, some WaitErr.ctxErr))
    ∧ (waitReceiptAux qMixed cancelAtOne 1 5 2
      = some (none, some (WaitErr.rpc 7))) :=
  ⟨(c4_waitReceipt_notFound_retries_rpcErr_fatal qMixed cancelAtOne
      1 2 0).1 rfl rfl,
   (c4_waitReceipt_notFound_retries_rpcErr_fatal qMixed cancelAtOne
      1 1 1).2.1 rfl rfl,
   (c4_waitReceipt_notFound_retries_rpcErr_fatal qMixed cancelAtOne
      1 4 2).2.2 7 rfl⟩

/-- Result of one `client.BlockNumber` query inside a WaitBlock poll
loop. -/
inductive HeightQueryRes where
  | ok (h : Nat)
  | err (e : Nat)
deriving Repr, DecidableEq

/-- WaitBlock from the second compilation unit of devnet.go: a query
error is returned to the caller immediately; while the height is
below the target the loop sleeps 500ms and re-polls; once the height
reaches the target it returns nil.  `some (some e)` models a returned
error, `some none` a nil return, `none` a loop still running after
`fuel` iterations. -/
def waitBlockAux (q : Nat → HeightQueryRes) (n : Nat) :
    Nat → Nat → Option (Option Nat)
  | 0, _ => none
  | fuel + 1, i =>
    match q i with
    | .err e => some (some e)
    | .ok h => if h < n then waitBlockAux q n fuel (i + 1) else some none

/-- Outcome of helper.go's WaitBlock variant, whose
`require.NoError(t, err)` fatally aborts the running test on a query
error, so the function never returns a non-nil error: either the test
aborts carrying the error, or the function returns nil. -/
inductive HelperWaitBlockOut where
  | fatalAbort (e : Nat)
  | retNil
deriving Repr, DecidableEq

/-- WaitBlock from helper.go: same loop shape, but the query error
aborts the test via require.NoError instead of being returned. -/
def helperWaitBlockAux (q : Nat → HeightQueryRes) (n : Nat) :
    Nat → Nat → Option HelperWaitBlockOut
  | 0, _ => none
  | fuel + 1, i =>
    match q i with
    | .err e => some (.fatalAbort e)
    | .ok h =>
      if h < n then helperWaitBlockAux q n fuel (i + 1)
      else some .retNil

/-- The WaitBlock poll sleep in milliseconds
(`time.Sleep(500 * time.Millisecond)` in both variants). -/
def waitBlockSleepMs : Nat := 500

/-- Counterexample for C5: helper.go's WaitBlock, on an RPC error
from the height query, fatally aborts the test (outcome
`fatalAbort 7`); it does not return the error to its caller — the
only normal return of that variant is nil
(`retNil`, distinct from the abort outcome). -/
theorem c5_counterexample :
    helperWaitBlockAux (fun _ => HeightQueryRes.err 7) 5 1 0
      = some (HelperWaitBlockOut.fatalAbort 7)
    ∧ some (HelperWaitBlockOut.fatalAbort 7)
      ≠ some HelperWaitBlockOut.retNil :=
  ⟨rfl, by decide⟩

/-- C5 amended: both WaitBlock variants poll the chain height every
500ms, return successfully as soon as the observed height reaches the
target, and never retry an RPC error from the height query; the
devnet.go variant propagates the error immediately as a returned
error, while the helper.go variant surfaces it immediately by fatally
failing the test instead of returning it. -/
theorem c5_waitBlock_amended (q : Nat → HeightQueryRes) (n fuel i : Nat) :
    (∀ e, q i = .err e →
      waitBlockAux q n (fuel + 1) i = some (some e)
      ∧ helperWaitBlockAux q n (fuel + 1) i = some (.fatalAbort e))
    ∧ (∀ h, q i = .ok h → n ≤ h →
      waitBlockAux q n (fuel + 1) i = some none
      ∧ helperWaitBlockAux q n (fuel + 1) i = some .retNil)
    ∧ (∀ h, q i = .ok h → h < n →
      waitBlockAux q n (fuel + 1) i = waitBlockAux q n fuel (i + 1)
      ∧ helperWaitBlockAux q n (fuel + 1) i
          = helperWaitBlockAux q n fuel (i + 1))
    ∧ waitBlockSleepMs = 500 := by
  refine ⟨fun e hq => ?_, fun h hq hn => ?_, fun h hq hn => ?_, rfl⟩
  · constructor <;> simp [waitBlockAux, helperWaitBlockAux, hq]
  · constructor <;>
      simp [waitBlockAux, helperWaitBlockAux, hq, Nat.not_lt.mpr hn]
  · constructor <;> simp [waitBlockAux, helperWaitBlockAux, hq, hn]

/-- A height oracle: height 3 at iteration 0, height 6 at
iteration 1, an RPC error afterwards. -/
def qHeights : Nat → HeightQueryRes :=
  fun i => if i = 0 then .ok 3 else if i = 1 then .ok 6 else .err 9

/-- Witness for C5 with target 5 against `qHeights`: retry below the
target, success at the target, and the two variants' error
behaviours. -/
theorem c5_witness :
    (waitBlockAux qHeights 5 3 2 = some (some 9)
      ∧ helperWaitBlockAux qHeights 5 3 2
          = some (HelperWaitBlockOut.fatalAbort 9))
    ∧ (waitBlockAux qHeights 5 2 1 = some none
      ∧ helperWaitBlockAux qHeights 5 2 1
          = some HelperWaitBlockOut.retNil)
    ∧ (waitBlockAux qHeights 5 4 0 = waitBlockAux qHeights 5 3 1
      ∧ helperWaitBlockAux qHeights 5 4 0
          = helperWaitBlockAux qHeights 5 3 1) :=
  ⟨(c5_waitBlock_amended qHeights 5 2 2).1 9 rfl,
   (c5_waitBlock_amended qHeights 5 1 1).2.1 6 rfl (by decide),
   (c5_waitBlock_amended qHeights 5 3 0).2.2.1 3 rfl (by decide)⟩

/-- Outcome of `Vault.CreateAccount`: the returned address with the
number of receipt queries it took, or one of the three fatal paths
(`t.Fatalf` on send error, `t.Fatal` on a non-notFound receipt
error, `t.Fatal` on timeout after the poll budget). -/
inductive CreateOutcome where
  | funded (addr : Nat) (attempts : Nat)
  | fatalSendErr
  | fatalReceiptErr (e : Nat)
  | fatalTimeout
deriving Repr, DecidableEq

/-- The `for i := 0; i < 60; i++` receipt poll loop of CreateAccount
(part_000): a non-notFound error is fatal, a present receipt returns
the address, notFound sleeps one second and retries; exhausting the
counter is the fatal timeout. -/
def createAccountLoop (poll : Nat → ReceiptQueryRes) (addr : Nat) :
    Nat → Nat → CreateOutcome
  | 0, _ => .fatalTimeout
  | k + 1, i =>
    match poll i with
    | .rpcErr e => .fatalReceiptErr e
    | .found _ => .funded addr (i + 1)
    | .notFound => createAccountLoop poll addr k (i + 1)

/-- The receipt poll budget of CreateAccount (the loop bound 60). -/
def createAccountAttempts : Nat := 60

/-- The sleep between CreateAccount receipt polls, in milliseconds
(`time.Sleep(time.Second)`). -/
def createAccountSleepMs : Nat := 1000

/-- Function `Vault.CreateAccount` (part_000): build the funding transaction
(consuming a nonce), send it (`sendErr` models a SendTransaction
failure, which is fatal), then run the bounded receipt poll loop. -/
def Vault.CreateAccount (v : Vault) (sendErr : Bool)
    (poll : Nat → ReceiptQueryRes) (addr amount : Nat) :
    CreateOutcome × Vault :=
  let p := v.makeFundingTx addr amount
  if sendErr then (.fatalSendErr, p.2)
  else (createAccountLoop poll addr createAccountAttempts 0, p.2)

theorem createAccountLoop_found (poll : Nat → ReceiptQueryRes)
    (addr : Nat) :
    ∀ k i j r, i ≤ j → j < i + k → poll j = .found r →
      (∀ m, i ≤ m → m < j → poll m = .notFound) →
      createAccountLoop poll addr k i = .funded addr (j + 1) := by
  intro k
  induction k with
  | zero => intro i j r hij hjk; omega
  | succ n ih =>
    intro i j r hij hjk hfound hbefore
    rcases Nat.eq_or_lt_of_le hij with heq | hlt
    · subst heq
      simp [createAccountLoop, hfound]
    · have hi : poll i = .notFound := hbefore i le_rfl hlt
      simp only [createAccountLoop, hi]
      exact ih (i + 1) j r hlt (by omega) hfound
        (fun m hm1 hm2 => hbefore m (by omega) hm2)

theorem createAccountLoop_timeout (poll : Nat → ReceiptQueryRes)
    (addr : Nat) :
    ∀ k i, (∀ m, i ≤ m → m < i + k → poll m = .notFound) →
      createAccountLoop poll addr k i = .fatalTimeout := by
  intro k
  induction k with
  | zero => intro i hall; simp [createAccountLoop]
  | succ n ih =>
    intro i hall
    have hi : poll i = .notFound := hall i le_rfl (by omega)
    simp only [createAccountLoop, hi]
    exact ih (i + 1) (fun m hm1 hm2 => hall m (by omega) (by omega))

theorem createAccountLoop_congr (poll poll2 : Nat → ReceiptQueryRes)
    (addr : Nat) :
    ∀ k i, (∀ m, i ≤ m → m < i + k → poll m = poll2 m) →
      createAccountLoop poll addr k i
        = createAccountLoop poll2 addr k i := by
  intro k
  induction k with
  | zero => intro i hagree; simp [createAccountLoop]
  | succ n ih =>
    intro i hagree
    have hi : poll i = poll2 i := hagree i le_rfl (by omega)
    simp only [createAccountLoop, hi]
    rcases poll2 i with _ | e | r
    · exact ih (i + 1) (fun m hm1 hm2 => hagree m (by omega) (by omega))
    · rfl
    · rfl

/-- C8: CreateAccount polls for the funding receipt at most 60 times
at 1-second intervals — the outcome never depends on any poll past
the 60th; if a receipt appears at attempt j within the budget, it
returns the new account's address after j+1 queries; if all 60
attempts find nothing, it fails fatally with the timeout. -/
theorem c8_createAccount_poll_budget (v : Vault)
    (poll poll2 : Nat → ReceiptQueryRes) (addr amount : Nat) :
    (∀ j r, j < createAccountAttempts → poll j = .found r →
      (∀ i, i < j → poll i = .notFound) →
      (v.CreateAccount false poll addr amount).1 = .funded addr (j + 1))
    ∧ ((∀ i, i < createAccountAttempts → poll i = .notFound) →
      (v.CreateAccount false poll addr amount).1 = .fatalTimeout)
    ∧ ((∀ i, i < createAccountAttempts → poll i = poll2 i) →
      (v.CreateAccount false poll addr amount).1
        = (v.CreateAccount false poll2 addr amount).1)
    ∧ createAccountAttempts = 60 ∧ createAccountSleepMs = 1000 := by
  refine ⟨fun j r hj hf hb => ?_, fun hall => ?_, fun hagree => ?_,
    rfl, rfl⟩
  · simp only [Vault.CreateAccount, if_neg Bool.false_ne_true]
    exact createAccountLoop_found poll addr createAccountAttempts 0 j r
      (Nat.zero_le j) (by omega) hf (fun m hm1 hm2 => hb m hm2)
  · simp only [Vault.CreateAccount, if_neg Bool.false_ne_true]
    exact createAccountLoop_timeout poll addr createAccountAttempts 0
      (fun m hm1 hm2 => hall m (by omega))
  · simp only [Vault.CreateAccount, if_neg Bool.false_ne_true]
    exact createAccountLoop_congr poll poll2 addr createAccountAttempts 0
      (fun m hm1 hm2 => hagree m (by omega))

/-- A poll oracle: notFound for the first two attempts, then a
receipt. -/
def pollFoundAtTwo : Nat → ReceiptQueryRes :=
  fun i => if i < 2 then .notFound else .found { status := 1 }

/-- A poll oracle that never finds the receipt. -/
def pollNever : Nat → ReceiptQueryRes := fun _ => .notFound

/-- A poll oracle that finds the receipt only from attempt 60 on —
too late for the budget. -/
def pollLate : Nat → ReceiptQueryRes :=
  fun i => if i < 60 then .notFound else .found { status := 1 }

/-- Witness for C8: a receipt at attempt 2 funds the account after 3
queries; never finding one is the fatal timeout; a receipt appearing
only at attempt 60 is indistinguishable from never (the poll budget
is exactly 60). -/
theorem c8_witness :
    (({ nonce := 0 } : Vault).CreateAccount false pollFoundAtTwo
        42 1).1 = .funded 42 3
    ∧ (({ nonce := 0 } : Vault).CreateAccount false pollNever
        42 1).1 = .fatalTimeout
    ∧ (({ nonce := 0 } : Vault).CreateAccount false pollNever 42 1).1
      = (({ nonce := 0 } : Vault).CreateAccount false pollLate 42 1).1 :=
  ⟨(c8_createAccount_poll_budget { nonce := 0 } pollFoundAtTwo pollNever
      42 1).1 2 { status := 1 } (by decide) rfl
      (fun i hi => by
        have : i < 2 := hi
        simp [pollFoundAtTwo, this]),
   (c8_createAccount_poll_budget { nonce := 0 } pollNever pollLate
      42 1).2.1 (fun i hi => rfl),
   (c8_createAccount_poll_budget { nonce := 0 } pollNever pollLate
      42 1).2.2.1 (fun i hi => by
        have : i < 60 := hi
        simp [pollNever, pollLate, this])⟩

/-- The fallible external steps of addWhitelist (devnet.go), in the
order the source performs them: NewTaikoL1Client,
NewKeyedTransactorWithChainID, the WhitelistProver transaction
submission, and the rpc.WaitReceipt result. -/
structure WhitelistEnv where
  newClientErr : Option Nat
  transactorErr : Option Nat
  whitelistTxErr : Option Nat
  receiptRes : Except Nat Receipt
deriving Repr

/-- Go's `types.ReceiptStatusSuccessful`. -/
def receiptStatusSuccessful : Nat := 1

/-- Outcome of addWhitelist: a nil return, a returned error from one
of the four fallible steps, or the `t.Fatal` on an unsuccessful
receipt status. -/
inductive WhitelistOut where
  | ok
  | errRet (e : Nat)
  | fatalStatus
deriving Repr, DecidableEq

/-- addWhitelist from devnet.go: each step's error is returned; a
confirmed receipt with unsuccessful status is fatal; otherwise nil. -/
def addWhitelist (env : WhitelistEnv) : WhitelistOut :=
  match env.newClientErr with
  | some e => .errRet e
  | none =>
    match env.transactorErr with
    | some e => .errRet e
    | none =>
      match env.whitelistTxErr with
      | some e => .errRet e
      | none =>
        match env.receiptRes with
        | .error e => .errRet e
        | .ok r =>
          if r.status = receiptStatusSuccessful then .ok
          else .fatalStatus

/-- Observable events of an AddProverNode call, in execution order. -/
inductive ProverEvent where
  | whitelistConfirmed
  | proverStarted
  | proverAppended
deriving Repr, DecidableEq

/-- AddProverNode from devnet.go: fatal without a prover client type;
runs addWhitelist and is fatal (`Fatalf`) on its error or on the
fatal status inside it; only then starts the prover client and
appends it to the provers sequence under the lock.  Returns the new
provers sequence (`none` = fatal abort leaving the sequence
untouched) and the event trace. -/
def AddProverNode (hasProverClient : Bool) (env : WhitelistEnv)
    (provers : List Nat) (newProver : Nat) :
    Option (List Nat) × List ProverEvent :=
  if hasProverClient = false then (none, [])
  else
    match addWhitelist env with
    | .errRet _ => (none, [])
    | .fatalStatus => (none, [])
    | .ok =>
      (some (provers ++ [newProver]),
        [.whitelistConfirmed, .proverStarted, .proverAppended])

/-- C6: the prover is started only after the whitelist transaction is
confirmed with a successful status — the prover-started event occurs
only when addWhitelist succeeded, and strictly after the
whitelist-confirmed event; any whitelist failure (submission error,
receipt error, or unsuccessful status) aborts AddProverNode with no
prover started and the provers sequence unchanged; on success the
prover is appended. -/
theorem c6_prover_whitelist_before_start (hasProverClient : Bool)
    (env : WhitelistEnv) (provers : List Nat) (p : Nat) :
    (ProverEvent.proverStarted
        ∈ (AddProverNode hasProverClient env provers p).2 →
      addWhitelist env = .ok
      ∧ (AddProverNode hasProverClient env provers p).2.indexOf
            ProverEvent.whitelistConfirmed
        < (AddProverNode hasProverClient env provers p).2.indexOf
            ProverEvent.proverStarted)
    ∧ (addWhitelist env ≠ .ok →
      (AddProverNode hasProverClient env provers p).1 = none
      ∧ ProverEvent.proverStarted
          ∉ (AddProverNode hasProverClient env provers p).2)
    ∧ (addWhitelist env = .ok → hasProverClient = true →
      (AddProverNode hasProverClient env provers p).1
          = some (provers ++ [p])
      ∧ (AddProverNode hasProverClient env provers p).2
          = [.whitelistConfirmed, .proverStarted, .proverAppended]) := by
  refine ⟨?_, ?_, ?_⟩
  · intro hmem
    rcases hc : hasProverClient with _ | _
    · simp [AddProverNode, hc] at hmem
    · rcases hw : addWhitelist env with _ | e | _
      · refine ⟨rfl, ?_⟩
        have htrace : (AddProverNode true env provers p).2
            = [ProverEvent.whitelistConfirmed, ProverEvent.proverStarted,
               ProverEvent.proverAppended] := by
          simp [AddProverNode, hw]
        rw [htrace]
        decide
      · simp [AddProverNode, hc, hw] at hmem
      · simp [AddProverNode, hc, hw] at hmem
  · intro hne
    rcases hc : hasProverClient with _ | _
    · constructor <;> simp [AddProverNode]
    · rcases hw : addWhitelist env with _ | e | _
      · exact absurd hw hne
      · constructor <;> simp [AddProverNode, hw]
      · constructor <;> simp [AddProverNode, hw]
  · intro hok hcl
    subst hcl
    constructor <;> simp [AddProverNode, hok]

/-- A whitelist environment where every step succeeds and the receipt
status is successful. -/
def wlEnvOk : WhitelistEnv :=
  { newClientErr := none, transactorErr := none, whitelistTxErr := none,
    receiptRes := .ok { status := 1 } }

/-- A whitelist environment whose receipt confirms with the failed
status. -/
def wlEnvBadStatus : WhitelistEnv :=
  { newClientErr := none, transactorErr := none, whitelistTxErr := none,
    receiptRes := .ok { status := 0 } }

/-- Witness for C6: with a successful whitelist the prover is started
after confirmation and appended; with a failed receipt status the
prover never starts. -/
theorem c6_witness :
    (addWhitelist wlEnvOk = .ok
      ∧ (AddProverNode true wlEnvOk [] 5).2.indexOf
            ProverEvent.whitelistConfirmed
        < (AddProverNode true wlEnvOk [] 5).2.indexOf
            ProverEvent.proverStarted)
    ∧ ((AddProverNode true wlEnvBadStatus [] 5).1 = none
      ∧ ProverEvent.proverStarted
          ∉ (AddProverNode true wlEnvBadStatus [] 5).2)
    ∧ ((AddProverNode true wlEnvOk [] 5).1 = some [5]
      ∧ (AddProverNode true wlEnvOk [] 5).2
          = [.whitelistConfirmed, .proverStarted, .proverAppended]) :=
  ⟨(c6_prover_whitelist_before_start true wlEnvOk [] 5).1 (by decide),
   (c6_prover_whitelist_before_start true wlEnvBadStatus [] 5).2.1
     (by decide),
   (c6_prover_whitelist_before_start true wlEnvOk [] 5).2.2
     (by decide) rfl⟩

/-- The fallible steps of deployL1Contracts (devnet.go): whether a
contract client type exists, and the `Exec("deploy.sh")` error and
exit code. -/
structure DeployEnv where
  hasContractClient : Bool
  execErr : Bool
  exitCode : Nat
deriving Repr, DecidableEq

/-- deployL1Contracts from devnet.go: fatal (`Fatalf`, aborting the
Devnet) without a contract client type or when deploy.sh fails with
an exec error or a nonzero exit code; returns normally otherwise.
`true` = deployment completed, `false` = fatal abort. -/
def deployL1Contracts (env : DeployEnv) : Bool :=
  env.hasContractClient && !env.execErr && (env.exitCode == 0)

/-- Observable events of an AddL1ELNode call, in execution order. -/
inductive L1Event where
  | engineStarted
  | deployCompleted
  | engineAppended
deriving Repr, DecidableEq

/-- An L1 engine handle: its identity and whether contract deployment
against it completed (set on the only path that appends it). -/
structure Engine where
  id : Nat
  deployed : Bool
deriving Repr, DecidableEq

/-- AddL1ELNode from devnet.go: fatal without an L1 client type;
starts the engine, waits for it, runs deployL1Contracts exactly once
(fatal to the Devnet on failure), and only then appends the engine to
the L1 engine sequence under the lock. -/
def AddL1ELNode (hasL1Client : Bool) (env : DeployEnv)
    (l1Engines : List Engine) (newId : Nat) :
    Option (List Engine) × List L1Event :=
  if hasL1Client = false then (none, [])
  else
    if deployL1Contracts env then
      (some (l1Engines ++ [{ id := newId, deployed := true }]),
        [.engineStarted, .deployCompleted, .engineAppended])
    else (none, [.engineStarted])

/-- GetL1ELNode from devnet.go: fatal (`Fatalf`, modelled `none`) on
an out-of-range index, otherwise the engine at that index. -/
def GetL1ELNode (l1Engines : List Engine) (idx : Int) : Option Engine :=
  if idx < 0 ∨ (l1Engines.length : Int) ≤ idx then none
  else l1Engines.get? idx.toNat

theorem GetL1ELNode_mem (l : List Engine) (idx : Int) (e : Engine)
    (h : GetL1ELNode l idx = some e) : e ∈ l := by
  unfold GetL1ELNode at h
  split at h
  · exact absurd h (by simp)
  · exact List.get?_mem h

/-- C7: each AddL1ELNode call performs contract deployment at most
once, and exactly once — completed strictly before the append — on
any run that appends the engine; a deployment failure aborts the
Devnet fatally with the engine never appended; and when every
previously appended engine has its contracts deployed, every engine
visible through GetL1ELNode on the post-state does too. -/
theorem c7_addL1ELNode_deploys_once_before_append (hasL1Client : Bool)
    (env : DeployEnv) (l1Engines : List Engine) (nid : Nat) :
    ((AddL1ELNode hasL1Client env l1Engines nid).2.count
        L1Event.deployCompleted ≤ 1)
    ∧ (deployL1Contracts env = false →
      (AddL1ELNode hasL1Client env l1Engines nid).1 = none
      ∧ L1Event.engineAppended
          ∉ (AddL1ELNode hasL1Client env l1Engines nid).2)
    ∧ (L1Event.engineAppended
        ∈ (AddL1ELNode hasL1Client env l1Engines nid).2 →
      (AddL1ELNode hasL1Client env l1Engines nid).2.count
          L1Event.deployCompleted = 1
      ∧ (AddL1ELNode hasL1Client env l1Engines nid).2.indexOf
            L1Event.deployCompleted
        < (AddL1ELNode hasL1Client env l1Engines nid).2.indexOf
            L1Event.engineAppended)
    ∧ ((∀ e ∈ l1Engines, e.deployed = true) →
      ∀ res, (AddL1ELNode hasL1Client env l1Engines nid).1 = some res →
      ∀ idx e, GetL1ELNode res idx = some e → e.deployed = true) := by
  rcases hc : hasL1Client with _ | _
  · refine ⟨?_, fun _ => ?_, ?_, ?_⟩
    · simp [AddL1ELNode]
    · constructor <;> simp [AddL1ELNode]
    · intro hmem; simp [AddL1ELNode] at hmem
    · intro hpre res hres; simp [AddL1ELNode] at hres
  · rcases hd : deployL1Contracts env with _ | _
    · refine ⟨?_, fun _ => ?_, ?_, ?_⟩
      · simp [AddL1ELNode, hd]
      · constructor <;> simp [AddL1ELNode, hd]
      · intro hmem; simp [AddL1ELNode, hd] at hmem
      · intro hpre res hres; simp [AddL1ELNode, hd] at hres
    · have htrace : (AddL1ELNode true env l1Engines nid).2
          = [L1Event.engineStarted, L1Event.deployCompleted,
             L1Event.engineAppended] := by
        simp [AddL1ELNode, hd]
      refine ⟨?_, fun hdf => ?_, fun _ => ?_, ?_⟩
      · rw [htrace]; decide
      · simp at hdf
      · rw [htrace]; exact ⟨by decide, by decide⟩
      · intro hpre res hres idx e hget
        have hres2 : l1Engines ++ [{ id := nid, deployed := true }]
            = res := by
          simpa [AddL1ELNode, hd] using hres
        have hm := GetL1ELNode_mem res idx e hget
        rw [← hres2] at hm
        rcases List.mem_append.mp hm with h1 | h2
        · exact hpre e h1
        · simp only [List.mem_singleton] at h2
          rw [h2]

/-- A deployment environment in which deploy.sh succeeds. -/
def deployEnvOk : DeployEnv :=
  { hasContractClient := true, execErr := false, exitCode := 0 }

/-- A deployment environment in which deploy.sh exits nonzero. -/
def deployEnvFail : DeployEnv :=
  { hasContractClient := true, execErr := false, exitCode := 1 }

/-- Witness for C7: a failed deployment aborts with no engine
appended; a successful one deploys exactly once before the append,
and the engine then visible at index 1 has its contracts deployed. -/
theorem c7_witness :
    ((AddL1ELNode true deployEnvFail [] 1).1 = none
      ∧ L1Event.engineAppended ∉ (AddL1ELNode true deployEnvFail [] 1).2)
    ∧ ((AddL1ELNode true deployEnvOk [] 1).2.count
          L1Event.deployCompleted = 1
      ∧ (AddL1ELNode true deployEnvOk [] 1).2.indexOf
            L1Event.deployCompleted
        < (AddL1ELNode true deployEnvOk [] 1).2.indexOf
            L1Event.engineAppended)
    ∧ Engine.deployed { id := 1, deployed := true } = true :=
  ⟨(c7_addL1ELNode_deploys_once_before_append true deployEnvFail
      [] 1).2.1 (by decide),
   (c7_addL1ELNode_deploys_once_before_append true deployEnvOk
      [] 1).2.2.1 (by decide),
   (c7_addL1ELNode_deploys_once_before_append true deployEnvOk
      [{ id := 7, deployed := true }] 1).2.2.2
     (by intro e he; simp only [List.mem_singleton] at he; rw [he])
     [{ id := 7, deployed := true }, { id := 1, deployed := true }]
     (by decide) 1 { id := 1, deployed := true } (by decide)⟩

/-- TimeoutCtx from part_001 acting on the TestEnv's
most-recent-context slot (`lastCtx`/`lastCancel` are always assigned
together from one WithTimeout call, so the slot is the context's
identity): when a previous context exists its cancel function is
called first, then the freshly created context is stored and
returned.  Returns the new slot and the list of contexts cancelled by
this call. -/
def TimeoutCtx (last : Option Nat) (fresh : Nat) :
    Option Nat × List Nat :=
  match last with
  | some c => (some fresh, [c])
  | none => (some fresh, [])

/-- A run of n successive TimeoutCtx calls on one TestEnv, the k-th
call creating context `fresh k`, accumulating every cancellation. -/
def runTimeoutCtxs (fresh : Nat → Nat) : Nat → Option Nat × List Nat
  | 0 => (none, [])
  | n + 1 =>
    let p := runTimeoutCtxs fresh n
    let q := TimeoutCtx p.1 (fresh n)
    (q.1, p.2 ++ q.2)

/-- C9: each TimeoutCtx call cancels exactly the previously issued
context when one exists (and nothing on the first call), and leaves
the slot holding exactly the newly created context; over a run of
n+1 calls the contexts cancelled are exactly the first n issued, in
order, and the slot holds the last one. -/
theorem c9_timeoutCtx_cancels_previous (last : Option Nat)
    (c : Nat) (fresh : Nat → Nat) (n : Nat) :
    TimeoutCtx last c = (some c, last.toList)
    ∧ runTimeoutCtxs fresh (n + 1)
        = (some (fresh n), (List.range n).map fresh) := by
  constructor
  · cases last <;> rfl
  · induction n with
    | zero => rfl
    | succ k ih =>
      show (let p := runTimeoutCtxs fresh (k + 1);
        let q := TimeoutCtx p.1 (fresh (k + 1));
        (q.1, p.2 ++ q.2))
        = (some (fresh (k + 1)), (List.range (k + 1)).map fresh)
      rw [ih]
      simp [TimeoutCtx, List.range_succ]

/-- One semaphore operation of a RunTests task against the weighted
semaphore. -/
inductive SemOp where
  | acquire (n : Nat)
  | release (n : Nat)
deriving Repr, DecidableEq

/-- The semaphore operations one RunTests task performs, read off the
task body in part_001: `s.Acquire(ctx, 1)` before constructing the
TestEnv, a second `s.Acquire(ctx, 1)` before `t.Run`, and the single
deferred `s.Release(1)` at task exit. -/
def runTestsTaskSemOps : List SemOp :=
  [.acquire 1, .acquire 1, .release 1]

/-- The per-task operations the spec describes: one acquire before
constructing the TestEnv and running, one release on completion. -/
def specTaskSemOps : List SemOp := [.acquire 1, .release 1]

/-- Run one task's semaphore ops in isolation starting from `avail`
free permits: with no other goroutine left to release, an acquire
exceeding the available count blocks forever (`none`); otherwise the
remaining free-permit count. -/
def runSemOps : List SemOp → Nat → Option Nat
  | [], avail => some avail
  | .acquire n :: rest, avail =>
    if n ≤ avail then runSemOps rest (avail - n) else none
  | .release n :: rest, avail => runSemOps rest (avail + n)

/-- Total permits a task acquires. -/
def acquireTotal : List SemOp → Nat
  | [] => 0
  | .acquire n :: rest => n + acquireTotal rest
  | .release _ :: rest => acquireTotal rest

/-- Total permits a task releases. -/
def releaseTotal : List SemOp → Nat
  | [] => 0
  | .acquire _ :: rest => releaseTotal rest
  | .release n :: rest => n + releaseTotal rest

/-- C1 (failing, code bug): a RunTests task acquires two permits and
releases only one, where the spec's discipline acquires and releases
one; with concurrency budget 1 the lone task blocks forever on its
second acquire (while the spec's discipline completes), and with
budget 2 the task completes but returns only one of its two permits,
permanently leaking one permit per finished test. -/
theorem c1_runTests_double_acquire_leak :
    acquireTotal runTestsTaskSemOps = 2
    ∧ releaseTotal runTestsTaskSemOps = 1
    ∧ acquireTotal specTaskSemOps = 1
    ∧ releaseTotal specTaskSemOps = 1
    ∧ runSemOps runTestsTaskSemOps 1 = none
    ∧ runSemOps specTaskSemOps 1 = some 1
    ∧ runSemOps runTestsTaskSemOps 2 = some 1
    ∧ runSemOps specTaskSemOps 2 = some 2 := by
  decide

/-- What the WaitProveEvent prologue does on exit. -/
inductive ProveWatchOutcome where
  | panicNilUnsubscribe
  | fatalClean
  | proceeds (deferredSub : Option Nat)
deriving Repr, DecidableEq

/-- The prologue of WaitProveEvent (helper.go):
`sub, err := taikoL1.WatchBlockProven(...)` yields a nil subscription
exactly when it errors; `defer sub.Unsubscribe()` is registered
before the error check, capturing the current (possibly nil)
subscription; then `if err != nil { t.Fatal(...) }`, whose abort runs
the deferred calls — an Unsubscribe on a nil subscription is a nil
dereference. -/
def waitProveEventEntry (watchResult : Except Nat Nat) :
    ProveWatchOutcome :=
  let sub : Option Nat :=
    match watchResult with
    | .ok s => some s
    | .error _ => none
  let deferredSub := sub
  match watchResult with
  | .error _ =>
    match deferredSub with
    | none => .panicNilUnsubscribe
    | some _ => .fatalClean
  | .ok _ => .proceeds deferredSub

/-- C10: whenever WatchBlockProven returns an error (hence a nil
subscription), WaitProveEvent's exit dereferences the nil
subscription through the prematurely-deferred Unsubscribe instead of
terminating cleanly with only the fatal error; on success the
deferred slot holds the live subscription. -/
theorem c10_waitProveEvent_nil_unsubscribe (e s : Nat) :
    waitProveEventEntry (Except.error e)
        = ProveWatchOutcome.panicNilUnsubscribe
    ∧ waitProveEventEntry (Except.error e)
        ≠ ProveWatchOutcome.fatalClean
    ∧ waitProveEventEntry (Except.ok s)
        = ProveWatchOutcome.proceeds (some s) := by
  exact ⟨rfl, by simp [waitProveEventEntry], rfl⟩

end HiveTaiko
